import Mathlib

/-!
Verification of the per-module train-averaging computation in
`docs/dask_averaging.ipynb`.

The notebook's first-party logic is:

  def average_module(modno, run, pulses_per_train=64):
      source = f'SPB_DET_AGIPD1M-1/DET/{modno}CH0:xtdf'
      counts = run.get_data_counts(source, 'image.data')
      arr = run.get_dask_array(source, 'image.data')[:, :1]
      arr_trains = arr.reshape(-1, pulses_per_train, 512, 128)
      if modno == 0:
          print("array shape:", arr.shape)
          print("Reshaped to:", arr_trains.shape)
      return arr_trains.mean(axis=0, dtype=np.float32)

  mod_averages = [average_module(i, run, pulses_per_train=64) for i in range(16)]
  all_average = da.stack(mod_averages)
  all_average_arr = all_average.compute()

We embed numpy/dask arrays as a shape (list of dimension extents), a dtype
tag, and a flat row-major data function into the rationals (exact
arithmetic standing in for the numeric values).  Dask's laziness is
embedded by an expression tree `LazyOp` describing the deferred
computation; graph construction performs the eager checks dask/numpy
perform at build time (reshape divisibility, stack shape agreement), and
`compute` evaluates a tree to a concrete array.  A raised Python
exception is embedded as `none`.
-/

set_option linter.unusedVariables false

/-- Element-type tags carried by arrays (numpy dtypes). -/
inductive Dtype where
  | uint16
  | float32
  | float64
  deriving DecidableEq

/-- A concrete ndarray: shape, dtype tag, and row-major flat data.
Entries at flat indices beyond `shape.prod` are irrelevant. -/
structure NDArray where
  shape : List Nat
  dtype : Dtype
  data : Nat → ℚ

/-- Sum of `f 0 + ... + f (n-1)`. -/
def seqSum : Nat → (Nat → ℚ) → ℚ
  | 0, _ => 0
  | n + 1, f => seqSum n f + f n

/-- `arr[:, :1]`: keep only the first slot of the second axis.
On shape `[f, d, r, c]` the result has shape `[f, min d 1, r, c]`. -/
def sliceFirstCol (a : NDArray) : NDArray :=
  match a.shape with
  | f :: d :: rest =>
      let b := rest.prod
      { shape := f :: min d 1 :: rest
        dtype := a.dtype
        data := fun ix =>
          a.data (ix / (min d 1 * b) * (d * b) + ix % (min d 1 * b)) }
  | _ => a

/-- `arr.reshape(sh)` in C order: the flat data is unchanged, only the
shape changes (validity of `sh` is checked at graph-construction time). -/
def ndReshape (sh : List Nat) (a : NDArray) : NDArray :=
  { shape := sh, dtype := a.dtype, data := a.data }

/-- `arr.mean(axis=0, dtype=np.float32)`: average the leading axis,
accumulating and returning in float32 (exact rationals in this model). -/
def meanAxis0 (a : NDArray) : NDArray :=
  match a.shape with
  | [] => a
  | t :: rest =>
      { shape := rest
        dtype := Dtype.float32
        data := fun j => seqSum t (fun i => a.data (i * rest.prod + j)) / (t : ℚ) }

/-- `np.stack`-style concrete stacking along a new leading axis. -/
def stackArrays (parts : List NDArray) : NDArray :=
  match parts with
  | [] => { shape := [0], dtype := Dtype.float32, data := fun _ => 0 }
  | a :: _ =>
      let b := a.shape.prod
      { shape := parts.length :: a.shape
        dtype := a.dtype
        data := fun ix => (parts.getD (ix / b) a).data (ix % b) }

/-- A dask graph: the description of a deferred array computation. -/
inductive LazyOp where
  | source (a : NDArray)
  | sliceFirst (e : LazyOp)
  | reshapeTo (sh : List Nat) (e : LazyOp)
  | meanAxis0F32 (e : LazyOp)
  | stack (es : List LazyOp)

mutual

/-- Shape metadata of a lazy array, known without evaluating the data
(as dask tracks shapes on graph nodes). -/
def lazyShape : LazyOp → List Nat
  | .source a => a.shape
  | .sliceFirst e =>
      match lazyShape e with
      | f :: d :: rest => f :: min d 1 :: rest
      | s => s
  | .reshapeTo sh _ => sh
  | .meanAxis0F32 e => (lazyShape e).tail
  | .stack es => es.length :: lazyShapeHead es
termination_by structural e => e

/-- Shape of the head of a list of lazy arrays (`[]` for the empty list). -/
def lazyShapeHead : List LazyOp → List Nat
  | [] => []
  | e :: _ => lazyShape e
termination_by structural es => es

end

/-- Dtype metadata of a lazy array, known without evaluating. -/
def lazyDtype : LazyOp → Dtype
  | .source a => a.dtype
  | .sliceFirst e => lazyDtype e
  | .reshapeTo _ e => lazyDtype e
  | .meanAxis0F32 _ => Dtype.float32
  | .stack es =>
      match es with
      | [] => Dtype.float32
      | e :: _ => lazyDtype e

mutual

/-- `.compute()`: evaluate a deferred computation to a concrete array.
A pure function of the graph: it mutates nothing. -/
def compute : LazyOp → NDArray
  | .source a => a
  | .sliceFirst e => sliceFirstCol (compute e)
  | .reshapeTo sh e => ndReshape sh (compute e)
  | .meanAxis0F32 e => meanAxis0 (compute e)
  | .stack es => stackArrays (computeList es)
termination_by structural e => e

/-- Evaluate each graph in a list. -/
def computeList : List LazyOp → List NDArray
  | [] => []
  | e :: es => compute e :: computeList es
termination_by structural es => es

end

/-- `arr.reshape(-1, dims...)`: dask/numpy eagerly infer the `-1` extent
and raise `ValueError` (here `none`) when the total element count is not
divisible by the product of the given extents. -/
def daReshape (e : LazyOp) (dims : List Nat) : Option LazyOp :=
  let total := (lazyShape e).prod
  let k := dims.prod
  if 0 < k ∧ k ∣ total then some (.reshapeTo (total / k :: dims) e) else none

/-- `da.stack(list)`: eagerly requires a nonempty list of arrays of equal
shape, raising (here `none`) otherwise. -/
def daStack (es : List LazyOp) : Option LazyOp :=
  match es with
  | [] => none
  | e :: rest =>
      if rest.all (fun x => lazyShape x = lazyShape e) then some (.stack es)
      else none

/-- The open-run handle: the external data accessor, exposing a lazy
array and the per-train frame counts for a (source, key) pair. -/
structure Run where
  get_dask_array : String → String → LazyOp
  get_data_counts : String → String → List Nat

/-- The detector source name built for module `modno`. -/
def sourceName (modno : Nat) : String :=
  "SPB_DET_AGIPD1M-1/DET/" ++ toString modno ++ "CH0:xtdf"

/-- `average_module` from the notebook.  Returns the deferred
computation it builds (or `none` where Python would raise) together with
the list of lines printed to the console. -/
def average_module (modno : Nat) (run : Run) (pulses_per_train : Nat) :
    Option LazyOp × List String :=
  let source := sourceName modno
  let counts := run.get_data_counts source "image.data"
  let arr := LazyOp.sliceFirst (run.get_dask_array source "image.data")
  match daReshape arr [pulses_per_train, 512, 128] with
  | none => (none, [])
  | some arr_trains =>
      let output :=
        if modno == 0 then
          ["array shape: " ++ toString (lazyShape arr),
           "Reshaped to: " ++ toString (lazyShape arr_trains)]
        else []
      (some (LazyOp.meanAxis0F32 arr_trains), output)

/-- Evaluate `average_module` at each index of a list, propagating the
first failure (as a Python list comprehension aborts on an exception). -/
def mapAverage (run : Run) : List Nat → Option (List LazyOp)
  | [] => some []
  | i :: is =>
      match (average_module i run 64).fst, mapAverage run is with
      | some a, some rest => some (a :: rest)
      | _, _ => none

/-- `mod_averages = [average_module(i, run, pulses_per_train=64) for i in
range(16)]`; `none` when any module's call raises. -/
def mod_averages (run : Run) : Option (List LazyOp) :=
  mapAverage run (List.range 16)

/-- `all_average = da.stack(mod_averages)`. -/
def all_average (run : Run) : Option LazyOp :=
  (mod_averages run).bind daStack

/-- `all_average_arr = all_average.compute()`. -/
def all_average_arr (run : Run) : Option NDArray :=
  (all_average run).map compute

/-- `result[i]`: index the leading axis of a concrete array. -/
def indexFirst (a : NDArray) (i : Nat) : NDArray :=
  match a.shape with
  | [] => a
  | _ :: rest =>
      { shape := rest, dtype := a.dtype
        data := fun j => a.data (i * rest.prod + j) }

/-- Extensional agreement of concrete arrays: same shape, same dtype,
same data at every in-range flat index. -/
def arrEquiv (a b : NDArray) : Prop :=
  a.shape = b.shape ∧ a.dtype = b.dtype ∧
    ∀ j < a.shape.prod, a.data j = b.data j

/-- `seqSum` only depends on the values of `f` below `n`. -/
theorem seqSum_congr (n : Nat) (f g : Nat → ℚ) (h : ∀ i < n, f i = g i) :
    seqSum n f = seqSum n g := by
  induction n with
  | zero => rfl
  | succ k ih =>
      simp only [seqSum]
      rw [ih (fun i hi => h i (Nat.lt_succ_of_lt hi)), h k (Nat.lt_succ_self k)]

/-- C1: for a synthetic input of shape (t·p, 1, H, W) with values `v`,
the notebook's slice + reshape-to-(trains, pulses) + mean-over-trains
pipeline produces, at each (pulse, row, column) position, exactly the
arithmetic mean over all trains of the values at that pulse index. -/
theorem C1_reshape_mean_is_per_pulse_mean (t p H W : Nat) (dt : Dtype) (v : Nat → ℚ) :
    (compute (LazyOp.meanAxis0F32 (LazyOp.reshapeTo [t, p, H, W]
        (LazyOp.sliceFirst (LazyOp.source ⟨[t * p, 1, H, W], dt, v⟩))))).shape
      = [p, H, W] ∧
    ∀ pu < p, ∀ rc < H * W,
      (compute (LazyOp.meanAxis0F32 (LazyOp.reshapeTo [t, p, H, W]
          (LazyOp.sliceFirst (LazyOp.source ⟨[t * p, 1, H, W], dt, v⟩))))).data
          (pu * (H * W) + rc)
        = seqSum t (fun i => v ((i * p + pu) * (H * W) + rc)) / (t : ℚ) := by
  constructor
  · rfl
  · intro pu hpu rc hrc
    simp only [compute, ndReshape, sliceFirstCol, meanAxis0]
    congr 1
    apply seqSum_congr
    intro i hi
    simp only [List.prod_cons, List.prod_nil, Nat.min_self, one_mul, mul_one]
    rw [Nat.div_add_mod']
    congr 1
    ring

theorem C1_witness :
    (compute (LazyOp.meanAxis0F32 (LazyOp.reshapeTo [4, 2, 1, 1]
        (LazyOp.sliceFirst (LazyOp.source
          ⟨[4 * 2, 1, 1, 1], Dtype.uint16, fun ix => (ix : ℚ) + 1⟩))))).data
        (1 * (1 * 1) + 0)
      = seqSum 4 (fun i => ((((i * 2 + 1) * (1 * 1) + 0 : Nat) : ℚ)) + 1) / (4 : ℚ) :=
  (C1_reshape_mean_is_per_pulse_mean 4 2 1 1 Dtype.uint16
      (fun ix => (ix : ℚ) + 1)).2 1 (by decide) 0 (by decide)

/-- Any successful `average_module` call returns the mean-over-axis-0 of
the reshaped, sliced lazy module array. -/
theorem average_module_structure (modno p : Nat) (run : Run) (lz : LazyOp)
    (h : (average_module modno run p).fst = some lz) :
    ∃ c, lz = LazyOp.meanAxis0F32 (LazyOp.reshapeTo (c :: [p, 512, 128])
      (LazyOp.sliceFirst (run.get_dask_array (sourceName modno) "image.data"))) := by
  simp only [average_module] at h
  split at h
  · exact absurd h (by simp)
  · next at_ heq =>
      simp only [daReshape] at heq
      split at heq
      · refine ⟨(lazyShape (LazyOp.sliceFirst
          (run.get_dask_array (sourceName modno) "image.data"))).prod /
            ([p, 512, 128] : List Nat).prod, ?_⟩
        simp only [Option.some.injEq] at heq h
        rw [← h, ← heq]
      · exact absurd heq (by simp)

/-- `computeList` is just `compute` mapped over the list. -/
theorem computeList_eq_map (es : List LazyOp) :
    computeList es = es.map compute := by
  induction es with
  | nil => rfl
  | cons e es ih => simp only [computeList, ih, List.map_cons]

/-- Shape of a sliced array, as a function of the input shape. -/
theorem sliceFirstCol_shape (a : NDArray) :
    (sliceFirstCol a).shape
      = (match a.shape with
         | f :: d :: rest => f :: min d 1 :: rest
         | s => s) := by
  obtain ⟨s, dt, v⟩ := a
  rcases s with _ | ⟨f, _ | ⟨d, rest⟩⟩ <;> rfl

/-- Shape of a leading-axis mean: the tail of the input shape. -/
theorem meanAxis0_shape (a : NDArray) : (meanAxis0 a).shape = a.shape.tail := by
  obtain ⟨s, dt, v⟩ := a
  rcases s with _ | ⟨t, rest⟩ <;> rfl

mutual

/-- The shape of an evaluated graph is its lazily tracked shape. -/
theorem shape_compute : ∀ e : LazyOp, (compute e).shape = lazyShape e
  | .source a => rfl
  | .sliceFirst e => by
      rw [show compute (LazyOp.sliceFirst e) = sliceFirstCol (compute e) from rfl,
        sliceFirstCol_shape, shape_compute e]
      rfl
  | .reshapeTo sh e => rfl
  | .meanAxis0F32 e => by
      rw [show compute (LazyOp.meanAxis0F32 e) = meanAxis0 (compute e) from rfl,
        meanAxis0_shape, shape_compute e]
      rfl
  | .stack es => by
      rw [show compute (LazyOp.stack es) = stackArrays (computeList es) from rfl]
      cases es with
      | nil => rfl
      | cons e rest =>
          rw [show computeList (e :: rest) = compute e :: computeList rest from rfl]
          show (compute e :: computeList rest).length :: (compute e).shape
            = (e :: rest).length :: lazyShapeHead (e :: rest)
          rw [List.length_cons, List.length_cons, shapes_length rest,
            shape_compute e]
          rfl
termination_by structural e => e

/-- `computeList` preserves list length. -/
theorem shapes_length : ∀ es : List LazyOp, (computeList es).length = es.length
  | [] => rfl
  | e :: es => by
      rw [show computeList (e :: es) = compute e :: computeList es from rfl,
        List.length_cons, List.length_cons, shapes_length es]
termination_by structural es => es

end

/-- The dtype of an evaluated graph is its lazily tracked dtype, provided
the graph's shape metadata is a nonempty list at each mean node; we only
need the instances below, where this is immediate. -/
theorem meanAxis0_dtype (a : NDArray) (x : Nat) (s : List Nat)
    (h : a.shape = x :: s) : (meanAxis0 a).dtype = Dtype.float32 := by
  unfold meanAxis0
  split
  · simp_all
  · rfl

theorem dtype_compute_mean (e : LazyOp) (x : Nat) (s : List Nat)
    (hs : lazyShape e = x :: s) :
    (compute (LazyOp.meanAxis0F32 e)).dtype = Dtype.float32 := by
  rw [show compute (LazyOp.meanAxis0F32 e) = meanAxis0 (compute e) from rfl]
  exact meanAxis0_dtype _ x s (by rw [shape_compute e, hs])

theorem mapAverage_length (run : Run) :
    ∀ (is : List Nat) (es : List LazyOp), mapAverage run is = some es →
      es.length = is.length := by
  intro is
  induction is with
  | nil =>
      intro es h
      simp only [mapAverage, Option.some.injEq] at h
      subst h
      rfl
  | cons j is ih =>
      intro es h
      simp only [mapAverage] at h
      rcases h1 : (average_module j run 64).fst with _ | a <;> rw [h1] at h
      · cases h
      · rcases h2 : mapAverage run is with _ | rest <;> rw [h2] at h
        · cases h
        · simp only [Option.some.injEq] at h
          subst h
          simp only [List.length_cons, ih rest h2]

theorem mapAverage_get (run : Run) :
    ∀ (is : List Nat) (es : List LazyOp), mapAverage run is = some es →
      ∀ (k i : Nat) (a : LazyOp), is[k]? = some i → es[k]? = some a →
        (average_module i run 64).fst = some a := by
  intro is
  induction is with
  | nil => intro es h k i a hi ha; simp at hi
  | cons j is ih =>
      intro es h k i a hi ha
      simp only [mapAverage] at h
      rcases h1 : (average_module j run 64).fst with _ | a0 <;> rw [h1] at h
      · cases h
      · rcases h2 : mapAverage run is with _ | rest <;> rw [h2] at h
        · cases h
        · simp only [Option.some.injEq] at h
          subst h
          cases k with
          | zero =>
              simp only [List.getElem?_cons_zero, Option.some.injEq] at hi ha
              subst hi; subst ha
              exact h1
          | succ k =>
              simp only [List.getElem?_cons_succ] at hi ha
              exact ih rest h2 k i a hi ha

theorem daStack_some (e0 : LazyOp) (rest : List LazyOp) (st : LazyOp)
    (h : daStack (e0 :: rest) = some st) :
    st = LazyOp.stack (e0 :: rest) ∧ ∀ x ∈ rest, lazyShape x = lazyShape e0 := by
  simp only [daStack] at h
  split at h
  · next hall =>
      simp only [Option.some.injEq] at h
      simp only [List.all_eq_true, decide_eq_true_eq] at hall
      exact ⟨h.symm, hall⟩
  · cases h

theorem computeList_getD (d : NDArray) :
    ∀ (es : List LazyOp) (i : Nat) (hi : i < es.length),
      (computeList es).getD i d = compute (es.get ⟨i, hi⟩)
  | e :: es, 0, _ => rfl
  | e :: es, i + 1, hi => by
      rw [show computeList (e :: es) = compute e :: computeList es from rfl]
      show (computeList es).getD i d = _
      exact computeList_getD d es i (Nat.lt_of_succ_lt_succ hi)

theorem idx_div (i j b : Nat) (hj : j < b) : (i * b + j) / b = i := by
  have hb : 0 < b := Nat.lt_of_le_of_lt (Nat.zero_le j) hj
  rw [Nat.add_comm, Nat.mul_comm, Nat.add_mul_div_left _ _ hb,
    Nat.div_eq_of_lt hj, Nat.zero_add]

theorem idx_mod (i j b : Nat) (hj : j < b) : (i * b + j) % b = j := by
  rw [Nat.add_comm, Nat.mul_comm, Nat.add_mul_mod_self_left,
    Nat.mod_eq_of_lt hj]

/-- A well-formed module array: 128 frames (2 trains of 64 pulses) of
512 x 128 pixels, constant value 3. -/
def arrOK : NDArray := ⟨[128, 1, 512, 128], Dtype.uint16, fun _ => 3⟩

/-- A run exposing `arrOK` for every source, with empty frame counts. -/
def runOK : Run := ⟨fun _ _ => LazyOp.source arrOK, fun _ _ => []⟩

/-- Same lazy data as `runOK` but different `get_data_counts`. -/
def runOK2 : Run := ⟨fun _ _ => LazyOp.source arrOK, fun _ _ => [7]⟩

/-- The graph `average_module` builds for any module of `runOK`. -/
def avgOK : LazyOp :=
  LazyOp.meanAxis0F32 (LazyOp.reshapeTo [2, 64, 512, 128]
    (LazyOp.sliceFirst (LazyOp.source arrOK)))

/-- A module array whose 5 frames do not divide into 64-pulse trains. -/
def arrBad : NDArray := ⟨[5, 1, 512, 128], Dtype.uint16, fun _ => 0⟩

/-- A run exposing `arrBad`. -/
def runBad : Run := ⟨fun _ _ => LazyOp.source arrBad, fun _ _ => []⟩

/-- A module array with 10 x 10 pixel geometry instead of 512 x 128. -/
def arrGeom : NDArray := ⟨[1, 1, 10, 10], Dtype.uint16, fun _ => 0⟩

/-- A run exposing `arrGeom`. -/
def runGeom : Run := ⟨fun _ _ => LazyOp.source arrGeom, fun _ _ => []⟩

/-- On `runOK`, module 1's call builds exactly `avgOK` and prints nothing. -/
theorem average_module_runOK : average_module 1 runOK 64 = (some avgOK, []) :=
  rfl

/-- C2: when a module's frame count is not divisible by
`pulses_per_train`, `average_module` fails (the eager `reshape(-1, ...)`
raises a `ValueError` naming the mismatched sizes) rather than returning
a result or silently misinterpreting the data. -/
theorem C2_indivisible_frame_count_fails (modno p f d : Nat) (dt : Dtype)
    (v : Nat → ℚ) (run : Run)
    (hga : run.get_dask_array (sourceName modno) "image.data"
      = LazyOp.source ⟨[f, d, 512, 128], dt, v⟩)
    (hd : 1 ≤ d) (hnd : ¬ p ∣ f) :
    average_module modno run p = (none, []) := by
  have hsh : lazyShape (LazyOp.sliceFirst
      (run.get_dask_array (sourceName modno) "image.data"))
      = [f, min d 1, 512, 128] := by rw [hga]; rfl
  have hcond : ¬ (0 < ([p, 512, 128] : List Nat).prod ∧
      ([p, 512, 128] : List Nat).prod
        ∣ ([f, min d 1, 512, 128] : List Nat).prod) := by
    rintro ⟨hk, hdvd⟩
    simp only [List.prod_cons, List.prod_nil, mul_one,
      Nat.min_eq_right hd, one_mul] at hdvd
    exact hnd ((Nat.mul_dvd_mul_iff_right
      (by norm_num : (0 : ℕ) < 512 * 128)).mp hdvd)
  simp only [average_module, daReshape, hsh, if_neg hcond]

theorem C2_witness : average_module 3 runBad 64 = (none, []) :=
  C2_indivisible_frame_count_fails 3 64 5 1 Dtype.uint16 (fun _ => 0) runBad
    rfl (by decide) (by decide)

/-- C10: the reshape target is hard-coded to 512 x 128 pixels; for a
module array whose pixel geometry differs, the reshape fails (returns
`none`) unless the total element count happens to factor. -/
theorem C10_geometry_mismatch_fails (modno p f d r c : Nat) (dt : Dtype)
    (v : Nat → ℚ) (run : Run)
    (hga : run.get_dask_array (sourceName modno) "image.data"
      = LazyOp.source ⟨[f, d, r, c], dt, v⟩)
    (hgeom : r ≠ 512 ∨ c ≠ 128)
    (hnd : ¬ (([p, 512, 128] : List Nat).prod
      ∣ ([f, min d 1, r, c] : List Nat).prod)) :
    average_module modno run p = (none, []) := by
  have hsh : lazyShape (LazyOp.sliceFirst
      (run.get_dask_array (sourceName modno) "image.data"))
      = [f, min d 1, r, c] := by rw [hga]; rfl
  have hcond : ¬ (0 < ([p, 512, 128] : List Nat).prod ∧
      ([p, 512, 128] : List Nat).prod
        ∣ ([f, min d 1, r, c] : List Nat).prod) := by
    rintro ⟨hk, hdvd⟩
    exact hnd hdvd
  simp only [average_module, daReshape, hsh, if_neg hcond]

theorem C10_witness : average_module 7 runGeom 64 = (none, []) :=
  C10_geometry_mismatch_fails 7 64 1 1 10 10 Dtype.uint16 (fun _ => 0)
    runGeom rfl (Or.inl (by decide)) (by decide)

/-- C5 counterexample: calling `average_module` for module 0 does print
to the console (the notebook's debug branch), so the claim that console
output is unchanged for every module index is false. -/
theorem C5_counterexample_module0_prints :
    (average_module 0 runOK 64).snd ≠ [] :=
  fun h => List.cons_ne_nil _ _ h

/-- C5 (amended): `average_module` builds and returns only a deferred
computation description, and for every module index other than 0 it
leaves console output unchanged; for module 0 it prints the sliced and
reshaped array shapes. -/
theorem C5_no_output_for_nonzero_module (modno : Nat) (run : Run) (p : Nat)
    (h : modno ≠ 0) : (average_module modno run p).snd = [] := by
  simp only [average_module]
  split
  · rfl
  · simp [h]

theorem C5_witness : (average_module 1 runOK 64).snd = [] :=
  C5_no_output_for_nonzero_module 1 runOK 64 (by decide)

/-- C9: `average_module` ignores the frame counts fetched by
`get_data_counts`: two runs serving the same lazy arrays but arbitrarily
different counts produce identical results. -/
theorem C9_counts_have_no_influence (run1 run2 : Run)
    (h : run1.get_dask_array = run2.get_dask_array) (modno p : Nat) :
    average_module modno run1 p = average_module modno run2 p := by
  simp only [average_module, h]

theorem C9_witness : average_module 2 runOK 64 = average_module 2 runOK2 64 :=
  C9_counts_have_no_influence runOK runOK2 rfl 2 64

/-- C6: whatever the input array's native dtype, a successful
`average_module` result carries dtype float32 (the mean is requested
with `dtype=np.float32`), both as lazy metadata and after evaluation. -/
theorem C6_result_dtype_is_float32 (modno p : Nat) (run : Run)
    (lz : LazyOp) (out : List String)
    (h : average_module modno run p = (some lz, out)) :
    lazyDtype lz = Dtype.float32 ∧ (compute lz).dtype = Dtype.float32 := by
  obtain ⟨c, hc⟩ := average_module_structure modno p run lz (by rw [h])
  subst hc
  exact ⟨rfl, dtype_compute_mean _ c [p, 512, 128] rfl⟩

theorem C6_witness :
    lazyDtype avgOK = Dtype.float32 ∧ (compute avgOK).dtype = Dtype.float32 :=
  C6_result_dtype_is_float32 1 64 runOK avgOK [] rfl

/-- C7: evaluation is a pure function of the computation description:
re-evaluating a result that has already been materialised as a concrete
array yields that same array, with no mutation of the description. -/
theorem C7_reevaluation_is_identity (e : LazyOp) :
    compute (LazyOp.source (compute e)) = compute e := rfl

/-- C8: a successful per-module average is a 3-D array indexed
(pulse, row, column), and the notebook's stacked result is a 4-D array
indexed (module, pulse, row, column) with leading dimension 16. -/
theorem C8_result_dimensionality :
    (∀ (modno p : Nat) (run : Run) (lz : LazyOp) (out : List String),
        average_module modno run p = (some lz, out) →
        (compute lz).shape = [p, 512, 128]) ∧
    (∀ (run : Run) (st : LazyOp), all_average run = some st →
        (compute st).shape = [16, 64, 512, 128]) := by
  constructor
  · intro modno p run lz out h
    obtain ⟨c, hc⟩ := average_module_structure modno p run lz (by rw [h])
    subst hc
    rw [shape_compute]
    rfl
  · intro run st h
    rcases hma : mod_averages run with _ | es
    · rw [all_average, hma] at h; cases h
    · rw [all_average, hma] at h
      replace h : daStack es = some st := h
      have hlen : es.length = 16 := by
        rw [mapAverage_length run (List.range 16) es hma, List.length_range]
      cases es with
      | nil => cases hlen
      | cons e rest =>
          have h0 : (average_module 0 run 64).fst = some e :=
            mapAverage_get run (List.range 16) (e :: rest) hma 0 0 e
              (by decide) (by simp)
          obtain ⟨c, hc⟩ := average_module_structure 0 64 run e h0
          obtain ⟨hst, hall⟩ := daStack_some e rest st h
          subst hst
          rw [shape_compute]
          show (e :: rest).length :: lazyShapeHead (e :: rest)
            = [16, 64, 512, 128]
          rw [hlen, show lazyShapeHead (e :: rest) = lazyShape e from rfl, hc]
          rfl

theorem C8_witness :
    (compute avgOK).shape = [64, 512, 128] ∧
    (compute (LazyOp.stack (List.replicate 16 avgOK))).shape
      = [16, 64, 512, 128] :=
  ⟨C8_result_dimensionality.1 1 64 runOK avgOK [] rfl,
   C8_result_dimensionality.2 runOK (LazyOp.stack (List.replicate 16 avgOK))
     rfl⟩

/-- C3: stacking per-module averaging results preserves module order:
the stacked result at leading index i agrees (same shape, dtype and
values) with the i-th input's average; and in the notebook's
instantiation the i-th element of `mod_averages` is module i's average,
so the stacked ordering matches the index sequence 0..15. -/
theorem C3_stack_preserves_module_order :
    (∀ (es : List LazyOp) (st : LazyOp),
        (∀ e ∈ es, ∃ modno run p, (average_module modno run p).fst = some e) →
        daStack es = some st →
        ∀ (i : Nat) (hi : i < es.length),
          arrEquiv (indexFirst (compute st) i) (compute (es.get ⟨i, hi⟩))) ∧
    (∀ (run : Run) (es : List LazyOp), mod_averages run = some es →
        es.length = 16 ∧
        ∀ (i : Nat) (hi : i < es.length),
          (average_module i run 64).fst = some (es.get ⟨i, hi⟩)) := by
  constructor
  · intro es st horig hst i hi
    cases es with
    | nil => cases hst
    | cons e0 rest =>
        obtain ⟨hsteq, hall⟩ := daStack_some e0 rest st hst
        subst hsteq
        have hshape_i : lazyShape ((e0 :: rest).get ⟨i, hi⟩) = lazyShape e0 := by
          cases i with
          | zero => rfl
          | succ i' =>
              exact hall _ (List.get_mem rest i' (Nat.lt_of_succ_lt_succ hi))
        have hdt : ∀ x ∈ e0 :: rest, (compute x).dtype = Dtype.float32 := by
          intro x hx
          obtain ⟨m, r, p, hx2⟩ := horig x hx
          obtain ⟨c, hc⟩ := average_module_structure m p r x hx2
          subst hc
          exact dtype_compute_mean _ c [p, 512, 128] rfl
        refine ⟨?_, ?_, ?_⟩
        · show (compute e0).shape = (compute ((e0 :: rest).get ⟨i, hi⟩)).shape
          rw [shape_compute, shape_compute, hshape_i]
        · show (compute e0).dtype = (compute ((e0 :: rest).get ⟨i, hi⟩)).dtype
          rw [hdt e0 (List.mem_cons_self e0 rest),
            hdt _ (List.get_mem (e0 :: rest) i hi)]
        · intro j hj
          have hj' : j < (compute e0).shape.prod := hj
          show ((computeList (e0 :: rest)).getD
              ((i * (compute e0).shape.prod + j) / (compute e0).shape.prod)
              (compute e0)).data
              ((i * (compute e0).shape.prod + j) % (compute e0).shape.prod)
            = (compute ((e0 :: rest).get ⟨i, hi⟩)).data j
          rw [idx_div i j _ hj', idx_mod i j _ hj',
            computeList_getD (compute e0) (e0 :: rest) i hi]
  · intro run es hma
    have hlen : es.length = 16 := by
      rw [mapAverage_length run (List.range 16) es hma, List.length_range]
    refine ⟨hlen, ?_⟩
    intro i hi
    have hi16 : i < 16 := hlen ▸ hi
    exact mapAverage_get run (List.range 16) es hma i i (es.get ⟨i, hi⟩)
      (by rw [List.getElem?_range hi16])
      (by rw [List.getElem?_eq_getElem hi]; rfl)

theorem C3_witness :
    arrEquiv (indexFirst (compute (LazyOp.stack [avgOK])) 0) (compute avgOK) ∧
    ((List.replicate 16 avgOK).length = 16 ∧
      ∀ (i : Nat) (hi : i < (List.replicate 16 avgOK).length),
        (average_module i runOK 64).fst
          = some ((List.replicate 16 avgOK).get ⟨i, hi⟩)) :=
  ⟨C3_stack_preserves_module_order.1 [avgOK] (LazyOp.stack [avgOK])
      (fun e he => by
        rw [List.mem_singleton] at he
        subst he
        exact ⟨1, runOK, 64, rfl⟩)
      rfl 0 (by decide),
   C3_stack_preserves_module_order.2 runOK (List.replicate 16 avgOK) rfl⟩

/-- Module 0 of the spec's end-to-end scenario: 8 flat frames with
values 1..8, pixel geometry 1 x 1. -/
def arrM0 : NDArray := ⟨[8, 1, 1, 1], Dtype.uint16, fun ix => (ix : ℚ) + 1⟩

/-- The notebook pipeline (slice, reshape to 4 trains of 2 pulses, mean
over trains) on a 1 x 1-pixel module array. -/
def pipelineM (a : NDArray) : LazyOp :=
  LazyOp.meanAxis0F32 (LazyOp.reshapeTo [4, 2, 1, 1]
    (LazyOp.sliceFirst (LazyOp.source a)))

/-- C4: the end-to-end scenario with 2 modules, 4 trains,
pulses_per_train = 2, H = W = 1.  Module 0's flat values [1..8] are
grouped by the reshape into trains [[1,2],[3,4],[5,6],[7,8]], its mean
over trains is [4.0, 5.0]; the analogous means hold for module 1 with
arbitrary values `w`; and the stacked result has shape (2,2,1,1) and
contains the two per-module rows in order. -/
theorem C4_end_to_end_scenario (w : Nat → ℚ) :
    (∀ tr < 4, ∀ pu < 2,
      (compute (LazyOp.reshapeTo [4, 2, 1, 1]
        (LazyOp.sliceFirst (LazyOp.source arrM0)))).data (tr * 2 + pu)
        = (tr : ℚ) * 2 + (pu : ℚ) + 1) ∧
    (compute (pipelineM arrM0)).data 0 = 4 ∧
    (compute (pipelineM arrM0)).data 1 = 5 ∧
    (compute (pipelineM ⟨[8, 1, 1, 1], Dtype.uint16, w⟩)).data 0
      = (w 0 + w 2 + w 4 + w 6) / 4 ∧
    (compute (pipelineM ⟨[8, 1, 1, 1], Dtype.uint16, w⟩)).data 1
      = (w 1 + w 3 + w 5 + w 7) / 4 ∧
    daStack [pipelineM arrM0, pipelineM ⟨[8, 1, 1, 1], Dtype.uint16, w⟩]
      = some (LazyOp.stack [pipelineM arrM0,
          pipelineM ⟨[8, 1, 1, 1], Dtype.uint16, w⟩]) ∧
    (compute (LazyOp.stack [pipelineM arrM0,
      pipelineM ⟨[8, 1, 1, 1], Dtype.uint16, w⟩])).shape = [2, 2, 1, 1] ∧
    (compute (LazyOp.stack [pipelineM arrM0,
      pipelineM ⟨[8, 1, 1, 1], Dtype.uint16, w⟩])).data 0 = 4 ∧
    (compute (LazyOp.stack [pipelineM arrM0,
      pipelineM ⟨[8, 1, 1, 1], Dtype.uint16, w⟩])).data 1 = 5 ∧
    (compute (LazyOp.stack [pipelineM arrM0,
      pipelineM ⟨[8, 1, 1, 1], Dtype.uint16, w⟩])).data 2
      = (w 0 + w 2 + w 4 + w 6) / 4 ∧
    (compute (LazyOp.stack [pipelineM arrM0,
      pipelineM ⟨[8, 1, 1, 1], Dtype.uint16, w⟩])).data 3
      = (w 1 + w 3 + w 5 + w 7) / 4 := by
  refine ⟨?_, ?_, ?_, ?_, ?_, rfl, rfl, ?_, ?_, ?_, ?_⟩
  · intro tr htr pu hpu
    simp only [compute, ndReshape, sliceFirstCol, arrM0, List.prod_cons,
      List.prod_nil, Nat.min_self, Nat.mod_one, Nat.div_one, mul_one,
      one_mul, Nat.add_zero]
    push_cast
    ring
  · norm_num [pipelineM, compute, meanAxis0, ndReshape, sliceFirstCol,
      arrM0, seqSum]
  · norm_num [pipelineM, compute, meanAxis0, ndReshape, sliceFirstCol,
      arrM0, seqSum]
  · norm_num [pipelineM, compute, meanAxis0, ndReshape, sliceFirstCol,
      seqSum]
  · norm_num [pipelineM, compute, meanAxis0, ndReshape, sliceFirstCol,
      seqSum]
  · norm_num [pipelineM, compute, computeList, stackArrays, meanAxis0,
      ndReshape, sliceFirstCol, seqSum, arrM0]
  · norm_num [pipelineM, compute, computeList, stackArrays, meanAxis0,
      ndReshape, sliceFirstCol, seqSum, arrM0]
  · norm_num [pipelineM, compute, computeList, stackArrays, meanAxis0,
      ndReshape, sliceFirstCol, seqSum]
  · norm_num [pipelineM, compute, computeList, stackArrays, meanAxis0,
      ndReshape, sliceFirstCol, seqSum]

theorem C4_witness :
    (compute (LazyOp.reshapeTo [4, 2, 1, 1]
      (LazyOp.sliceFirst (LazyOp.source arrM0)))).data (1 * 2 + 0)
      = (1 : ℚ) * 2 + (0 : ℚ) + 1 ∧
    (compute (pipelineM arrM0)).data 0 = 4 :=
  ⟨(C4_end_to_end_scenario (fun _ => 0)).1 1 (by decide) 0 (by decide),
   (C4_end_to_end_scenario (fun _ => 0)).2.1⟩
